import Mathlib

set_option linter.unusedVariables false

/-
Verification development for the ddft/dqc repository.

The embedding below models, over exact rationals:
  - ddft/maths/eigpairs.py      (exacteig, lanczos, davidson, _check_and_get_shape,
                                 _set_initial_v, the Davidson preconditioner clamp)
  - ddft/modules/optimize.py    (_ForwardOpt.backward, _BackwardOpt.backward)
  - dqc/qccalc/rks.py           (RKS.__init__ / run / energy state machine and the
                                 energy combination formula)
  - ddft/basissets/cgto_basis.py (CGTOBasis.loadbasis caching)
  - ddft/eks/base_eks.py        (BaseEKS.__add__, AddEKS, _normalize)

External numeric primitives (torch.symeig, torch.qr, torch.randn, the integral and
grid collaborators) are modelled at the level of their documented contracts: a
symmetric eigendecomposition is represented by the multiset of eigenvalues it
produces, returned in ascending order (torch.symeig's documented ordering); the
reduced QR factor has min(rows, cols) orthonormal columns.  Tensors are rational
vectors/matrices; a batched tensor is a list of per-batch values.
-/

/-- Rational matrix, stored as a list of rows (columns for subspace bases,
where noted). -/
abbrev QMat := List (List ℚ)

/-- Dot product of two rational vectors (`torch.sum(a * b)` on 1-d tensors). -/
def qdot (xs ys : List ℚ) : ℚ := (List.zipWith (· * ·) xs ys).sum

/-- Transpose of a rectangular row-major matrix: column `j` collects entry `j`
of every row. -/
def transposeQ (A : QMat) : QMat :=
  (List.range ((A.headD []).length)).map (fun j => A.map (fun row => row.getD j 0))

/-- Matrix product, rows of `A` against columns of `B` (`A.mm(B)`). -/
def matmul (A B : QMat) : QMat :=
  A.map (fun row => (transposeQ B).map (fun col => qdot row col))

/-- The einsum `"...rc,r,...rc->..."` of rks.py lines 105 and 109: the
occupation-weighted trace `sum_r w_r * sum_c (M.mm(E))_rc * E_rc`. -/
def weightedTrace (M E : QMat) (w : List ℚ) : ℚ :=
  (List.zipWith (fun wr p => wr * qdot p.1 p.2) w ((matmul M E).zip E)).sum

/-- A Python/torch runtime value appearing in `RKS.energy`: either a scalar
tensor or an xitorch `LinearOperator` (represented by its dense matrix). -/
inductive PyVal where
  | tensor : ℚ → PyVal
  | linop : QMat → PyVal
deriving DecidableEq

/-- Entrywise matrix subtraction. -/
def matsub (A B : QMat) : QMat :=
  List.zipWith (fun ra rb => List.zipWith (· - ·) ra rb) A B

/-- Python binary `-` between the runtime values of `RKS.energy`: two scalar
tensors subtract; two `LinearOperator`s subtract (xitorch `__sub__`); a scalar
tensor minus a `LinearOperator` is unsupported and raises a `TypeError`. -/
def pySub : PyVal → PyVal → Except String PyVal
  | PyVal.tensor a, PyVal.tensor b => Except.ok (PyVal.tensor (a - b))
  | PyVal.linop a, PyVal.linop b => Except.ok (PyVal.linop (matsub a b))
  | _, _ => Except.error "TypeError: unsupported operand types for -: Tensor and LinearOperator"

/-- Model of `RKS.energy` (rks.py lines 93-113), given the values produced by
the collaborator calls: the converged orbital eigenvalues `eivals`, occupation
weights `orb_weight`, occupied eigenvectors `eivecs` (nao x norb, rows), the xc
energy `exc`, the xc potential operator `vxc`, the electron repulsion operator
`elrep`, and the nuclear repulsion energy `e_nucl`.  Line 112 of the source
computes `e_tot = eivals_tot + (exc - vxc) - e_elrep + e_nucl`, where `vxc` is
the LinearOperator from line 104, not the scalar trace `e_vxc` of line 105. -/
def rks_energy (eivals orb_weight : List ℚ) (eivecs : QMat) (exc : ℚ)
    (vxc : QMat) (elrep : QMat) (e_nucl : ℚ) : Except String ℚ :=
  let eivals_tot : ℚ := qdot eivals orb_weight
  let e_vxc : ℚ := weightedTrace vxc eivecs orb_weight
  let e_elrep : ℚ := (1 / 2) * weightedTrace elrep eivecs orb_weight
  match pySub (PyVal.tensor exc) (PyVal.linop vxc) with
  | Except.error msg => Except.error msg
  | Except.ok (PyVal.tensor t) => Except.ok (eivals_tot + t - e_elrep + e_nucl)
  | Except.ok (PyVal.linop _) => Except.error "TypeError: unsupported operand types for +"

/-- The energy combination as claim C1 states it: orbital-energy-weighted trace,
plus xc energy minus the xc-potential double-counting trace `e_vxc`, minus half
the electron-repulsion double-counting trace, plus the nuclear repulsion. -/
def rks_energy_claimed (eivals orb_weight : List ℚ) (eivecs : QMat) (exc : ℚ)
    (vxc : QMat) (elrep : QMat) (e_nucl : ℚ) : ℚ :=
  qdot eivals orb_weight + (exc - weightedTrace vxc eivecs orb_weight)
    - (1 / 2) * weightedTrace elrep eivecs orb_weight + e_nucl

/-- Caller-visible state of an `RKS` object: the `has_run` flag and the
converged density matrix `_dm` (absent until `run()` assigns it). -/
structure RKSState where
  has_run : Bool
  dm : Option QMat
deriving DecidableEq

/-- `RKS.__init__` (rks.py lines 26-53): builds the Hamiltonian and, on its
last line (line 53), sets `self.has_run = True`; `self._dm` is not assigned. -/
def RKS_init : RKSState := ⟨true, none⟩

/-- `RKS.run` (rks.py lines 55-91): drives the self-consistent iteration,
stores the converged density matrix in `self._dm` and sets `has_run = True`. -/
def RKS_run (st : RKSState) (dm : QMat) : RKSState := ⟨true, some dm⟩

/-- `RKS.energy` guarded by the `_dm` attribute access: on an object whose
`run()` has never assigned `self._dm`, line 95 (`self._dm`) raises an
`AttributeError`; otherwise the energy body `rks_energy` runs. -/
def RKS_energy (st : RKSState) (eivals orb_weight : List ℚ) (eivecs : QMat)
    (exc : ℚ) (vxc elrep : QMat) (e_nucl : ℚ) : Except String ℚ :=
  match st.dm with
  | none => Except.error "AttributeError: RKS object has no attribute _dm"
  | some _ => rks_energy eivals orb_weight eivecs exc vxc elrep e_nucl

/-- `torch.allclose(gx, gx * 0)` with default tolerances `rtol = 1e-5`,
`atol = 1e-8`: every entry satisfies `|gx_i - 0| <= atol + rtol * |0| = 1e-8`. -/
def allcloseZero (gx : List ℚ) : Bool := gx.all (fun v => |v| ≤ 1 / 100000000)

/-- `_ForwardOpt.backward` (optimize.py lines 137-139): for any incoming
gradients on `(zopt, *xopt)` it returns `None` for all six forward inputs
`(model, mult, x0, fwd_options, yparams, optimize_model)` and never raises. -/
def forwardOpt_backward (grad_zopt : ℚ) (grad_xopt : List (List ℚ)) :
    Except String (List (Option ℚ)) :=
  Except.ok [none, none, none, none, none, none]

/-- `_BackwardOpt.backward` (optimize.py lines 150-161): if every incoming
gradient tensor on `x*` is allclose to zero, pass `grad_zopt` through as the
gradient on `fmodel` (and `None` for the other two inputs); otherwise raise
`RuntimeError("Unimplemented gradient contribution from the argmin")`. -/
def backwardOpt_backward (grad_zopt : ℚ) (grad_xopt : List (List ℚ)) :
    Except String (Option ℚ × Option ℚ × Option ℚ) :=
  if grad_xopt.all allcloseZero then Except.ok (some grad_zopt, none, none)
  else Except.error "Unimplemented gradient contribution from the argmin"

/-- Ascending sort: the documented ordering of the eigenvalues returned by
`torch.symeig`.  A symmetric matrix is represented by the multiset of
eigenvalue approximations its dense eigendecomposition produces; `sortAsc` is
that decomposition's eigenvalue output. -/
def sortAsc (l : List ℚ) : List ℚ := l.insertionSort (· ≤ ·)

/-- `torch.symeig(T)` followed by the slice `evals[:neig]`. -/
def symeig_take (neig : ℕ) (spec : List ℚ) : List ℚ := (sortAsc spec).take neig

/-- Batched version of `symeig_take`: one spectrum per batch element. -/
def eigOut (neig : ℕ) (specB : List (List ℚ)) : List (List ℚ) :=
  specB.map (symeig_take neig)

/-- `(a - b).abs().max()` on a batched pair of eigenvalue tensors. -/
def maxAbsDev (a b : List (List ℚ)) : ℚ :=
  ((List.zipWith (fun ra rb => (List.zipWith (fun x y => |x - y|) ra rb).foldr max 0) a b).foldr max 0)

/-- `_check_and_get_shape` (eigpairs.py lines 307-311): raise a `TypeError`
when the operator's declared shape is not square, else return `na`. -/
def check_and_get_shape (shape : ℕ × ℕ) : Except String ℕ :=
  if shape.1 = shape.2 then Except.ok shape.1
  else Except.error "The linear transformation of davidson method must be a square matrix"

/-- The shape-mismatch message raised by `_check_and_get_shape`. -/
def shapeErrMsg : String :=
  "The linear transformation of davidson method must be a square matrix"

/-- The error raised when a loop body never assigned `eigvalT` before the
final `eigvals = eigvalT[:,:neig]` slice. -/
def unboundErrMsg : String :=
  "UnboundLocalError: local variable eigvalT referenced before assignment"

/-- One Davidson iteration's update of the trial-subspace column count:
`nadd = min(nj, max_addition)` new ritz columns (with `nj` the current column
count, since `T` is `ncols x ncols`) are appended and the reduced QR of the
augmented matrix keeps `min(na, ncols + nadd)` columns (`torch.qr`'s Q has
`min(rows, cols)` columns). -/
def davidson_ncols_step (na max_addition ncols : ℕ) : ℕ :=
  min na (ncols + min ncols max_addition)

/-- Column count of the Davidson trial subspace at the start of iteration `i`,
starting from `v0` initial guess columns. -/
def davidson_ncols (na max_addition v0 : ℕ) : ℕ → ℕ
  | 0 => v0
  | i + 1 => davidson_ncols_step na max_addition (davidson_ncols na max_addition v0 i)

/-- `len(range(start, stop, step))` for a positive Python step. -/
def pyRangeLen (start stop step : ℕ) : ℕ := (stop - start + step - 1) / step

/-- The Davidson iteration (eigpairs.py lines 196-261) at the level of its
eigenvalue data flow.  `specs i` is the multiset of Ritz values of the
projected matrix `T = V^t A V` at iteration `i` (per batch element); the loop
sorts it (`torch.symeig`), checks convergence of the lowest `neig` Ritz values
against the previous iteration, stops when the subspace is full rank, and
otherwise expands the subspace.  `fuel` counts the remaining loop iterations;
on exhaustion the last computed `eigvalT[:,:neig]` is returned (an
`UnboundLocalError` if no iteration ever ran). -/
def davidsonRun (na neig : ℕ) (min_eps : ℚ) (max_addition : ℕ)
    (specs : ℕ → List (List ℚ)) :
    ℕ → ℕ → ℕ → Option (List (List ℚ)) → Except String (List (List ℚ))
  | 0, _, _, none => Except.error unboundErrMsg
  | 0, _, _, some prev => Except.ok prev
  | fuel + 1, iter, ncols, prev =>
    let eigvalT := (specs iter).map sortAsc
    let cur := eigvalT.map (List.take neig)
    match prev with
    | some p =>
      if maxAbsDev cur p < min_eps then Except.ok cur
      else if ncols = na then Except.ok cur
      else davidsonRun na neig min_eps max_addition specs fuel (iter + 1)
        (davidson_ncols_step na max_addition ncols) (some cur)
    | none =>
      if ncols = na then Except.ok cur
      else davidsonRun na neig min_eps max_addition specs fuel (iter + 1)
        (davidson_ncols_step na max_addition ncols) (some cur)

/-- `davidson` (eigpairs.py lines 145-261): check the operator shape, then run
the iteration for `len(range(nguess, max_niter, nguess))` steps starting from
`v0cols` trial columns. -/
def davidson (shape : ℕ × ℕ) (neig nguess max_niter max_addition : ℕ)
    (min_eps : ℚ) (v0cols : ℕ) (specs : ℕ → List (List ℚ)) :
    Except String (List (List ℚ)) :=
  match check_and_get_shape shape with
  | Except.error msg => Except.error msg
  | Except.ok na =>
    davidsonRun na neig min_eps max_addition specs
      (pyRangeLen nguess max_niter nguess) 0 v0cols none

/-- The Lanczos iteration (eigpairs.py lines 114-143) at the level of its
eigenvalue data flow.  While `i + 1 < neig` the convergence block is skipped
(`continue`); otherwise the projected matrix's Ritz values (`specs i`) are
sorted and the lowest `neig` compared against the previous iteration. -/
def lanczosRun (neig : ℕ) (min_eps : ℚ) (specs : ℕ → List (List ℚ)) :
    ℕ → ℕ → Option (List (List ℚ)) → Except String (List (List ℚ))
  | 0, _, none => Except.error unboundErrMsg
  | 0, _, some prev => Except.ok prev
  | fuel + 1, i, prev =>
    if i + 1 < neig then lanczosRun neig min_eps specs fuel (i + 1) prev
    else
      let eigvalT := (specs i).map sortAsc
      let cur := eigvalT.map (List.take neig)
      match prev with
      | some p =>
        if maxAbsDev cur p < min_eps then Except.ok cur
        else lanczosRun neig min_eps specs fuel (i + 1) (some cur)
      | none => lanczosRun neig min_eps specs fuel (i + 1) (some cur)

/-- `lanczos` (eigpairs.py lines 71-143): check the operator shape, then run
up to `max_niter` Krylov iterations. -/
def lanczos (shape : ℕ × ℕ) (neig max_niter : ℕ) (min_eps : ℚ)
    (specs : ℕ → List (List ℚ)) : Except String (List (List ℚ)) :=
  match check_and_get_shape shape with
  | Except.error msg => Except.error msg
  | Except.ok _ => lanczosRun neig min_eps specs max_niter 0 none

/-- `exacteig` (eigpairs.py lines 263-295): check the operator shape,
materialize the dense matrix (whose eigenvalue multiset is `spec0`), run
`torch.symeig` and slice the lowest `neig` values per batch element. -/
def exacteig (shape : ℕ × ℕ) (neig : ℕ) (spec0 : List (List ℚ)) :
    Except String (List (List ℚ)) :=
  match check_and_get_shape shape with
  | Except.error msg => Except.error msg
  | Except.ok _ => Except.ok (eigOut neig spec0)

/-- One entry of the Davidson preconditioner denominator after the guard
`finv[finv.abs() < eps_cond] = eps_cond` (eigpairs.py line 235). -/
def clampEntry (eps x : ℚ) : ℚ := if |x| < eps then eps else x

/-- The full preconditioner denominator `finv = diag(A) - lambda_i` after the
near-zero guard (eigpairs.py lines 234-235); its reciprocal is taken next. -/
def clampDenom (dA : List ℚ) (lam eps : ℚ) : List ℚ :=
  dA.map (fun d => clampEntry eps (d - lam))

/-- The global RNG state of torch, as threaded through `_set_initial_v`. -/
structure TorchRNG where
  state : ℕ
deriving DecidableEq

/-- `torch.manual_seed(seed)`: overwrite the RNG state with the seed. -/
def manual_seed (seed : ℕ) (g : TorchRNG) : TorchRNG := ⟨seed⟩

/-- Column `j` of `torch.eye(na, nguess)`: length `na`, entry `i` is the
Kronecker delta `[i = j]`. -/
def eyeCol : ℕ → ℕ → List ℚ
  | 0, _ => []
  | n + 1, 0 => 1 :: List.replicate n 0
  | n + 1, j + 1 => 0 :: eyeCol n j

/-- `torch.eye(na, nguess)` stored as its list of `nguess` columns. -/
def eyeMat (na nguess : ℕ) : List (List ℚ) := (List.range nguess).map (eyeCol na)

/-- Orthonormality of a list of columns: unit norms and pairwise-zero dot
products (`V^t V = I`). -/
def orthonormalCols (cols : List (List ℚ)) : Prop :=
  (∀ c ∈ cols, qdot c c = 1) ∧ cols.Pairwise (fun u v => qdot u v = 0)

/-- `_set_initial_v` (eigpairs.py lines 313-329).  `qr` is the reduced QR
primitive `torch.qr` (its `Q` factor, applied per batch element); `randn` and
`rand` are the torch generators, functions of the RNG state they consume and
the requested shape `(nbatch, na, nguess)`, returning one column-list matrix
per batch element.  The function first runs `torch.manual_seed(12421)`, then
generates `V` by the selected strategy, orthogonalizing by QR unless the
strategy already produced orthonormal columns ("eye"); an unknown strategy
name raises a `ValueError`. -/
def set_initial_v (qr : List (List ℚ) → List (List ℚ))
    (randn rand : ℕ → ℕ → ℕ → ℕ → List (List (List ℚ)))
    (vinit_type : String) (g : TorchRNG) (nbatch na nguess : ℕ) :
    Except String (List (List (List ℚ))) :=
  let g1 := manual_seed 12421 g
  if vinit_type = "eye" then
    Except.ok (List.replicate nbatch (eyeMat na nguess))
  else if vinit_type = "randn" then
    Except.ok ((randn g1.state nbatch na nguess).map qr)
  else if vinit_type = "random" ∨ vinit_type = "rand" then
    Except.ok ((rand g1.state nbatch na nguess).map qr)
  else Except.error ("Unknown v_init type: " ++ vinit_type)

/-- `CGTOBasis.loadbasis` (cgto_basis.py lines 20-73).  `fileExists` models
`os.path.exists` on the per-element basis file; `parsefile` models reading and
parsing the file for atomic number `atomz` with the given `cartesian` flag
(lines 28-70); `res_memory` is the cache keyed by `atomz`.  The returned
boolean records whether the call read a file.  A cache hit returns the stored
result before the filename is even formed; a miss with a missing file raises
a `RuntimeError`; otherwise the parsed result is stored under `atomz`. -/
def loadbasis {β : Type} (fileExists : ℕ → Bool) (parsefile : ℕ → Bool → β)
    (res_memory : List (ℕ × β)) (atomz : ℕ) (cartesian : Bool) :
    Except String (β × List (ℕ × β) × Bool) :=
  match res_memory.lookup atomz with
  | some res => Except.ok (res, res_memory, false)
  | none =>
    if fileExists atomz then
      let res := parsefile atomz cartesian
      Except.ok (res, (atomz, res) :: res_memory, true)
    else Except.error "RuntimeError: the file for this Z is not found"

/-- The closed set of energy-functional variants (base_eks.py): a leaf
functional carrying its `forward` energy density and its `potential`, and the
`AddEKS` composite of two functionals.  `D` is the type of a density info
argument; energy densities are evaluated pointwise to a rational. -/
inductive EKS (D : Type) where
  | leaf : (D → D → ℚ) → (D → D → ℚ × ℚ) → EKS D
  | add : EKS D → EKS D → EKS D

/-- `forward(densinfo_u, densinfo_d)`: a leaf applies its own energy density;
`AddEKS.forward` (base_eks.py lines 137-139) returns
`self.a(densinfo_u, densinfo_d) + self.b(densinfo_u, densinfo_d)`. -/
def EKS.forward {D : Type} : EKS D → D → D → ℚ
  | EKS.leaf f _, u, d => f u d
  | EKS.add a b, u, d => EKS.forward a u d + EKS.forward b u d

/-- `potential(densinfo_u, densinfo_d)`: a leaf applies its own potential
pair; `AddEKS.potential` (base_eks.py lines 141-144) returns
`(apot[0] + bpot[0], apot[1] + bpot[1])`. -/
def EKS.potential {D : Type} : EKS D → D → D → ℚ × ℚ
  | EKS.leaf _ p, u, d => p u d
  | EKS.add a b, u, d =>
    ((EKS.potential a u d).1 + (EKS.potential b u d).1,
     (EKS.potential a u d).2 + (EKS.potential b u d).2)

/-- The right operand of `BaseEKS.__add__`: either a `BaseEKS` instance or a
Python object of some other type (carrying its type name). -/
inductive PyEKSArg (D : Type) where
  | eks : EKS D → PyEKSArg D
  | notEKS : String → PyEKSArg D

/-- `_normalize` (base_eks.py lines 261-265): pass a `BaseEKS` through,
raise a `TypeError` for anything else. -/
def normalizeEKS {D : Type} : PyEKSArg D → Except String (EKS D)
  | PyEKSArg.eks a => Except.ok a
  | PyEKSArg.notEKS t => Except.error ("Unknown type " ++ t ++ " for operating with EKS object")

/-- `BaseEKS.__add__` (base_eks.py lines 97-99): normalize the other operand
and build `AddEKS(self, other)`. -/
def EKS.addOp {D : Type} (a : EKS D) (other : PyEKSArg D) : Except String (EKS D) :=
  (normalizeEKS other).map (fun b => EKS.add a b)

/-- `row` holds the `k` smallest of the eigenvalue approximations `produced`,
in ascending order: it is sorted, has `min k |produced|` entries, and some
reordering of `produced` splits into `row` followed by values that are all at
least every entry of `row`. -/
def isKSmallestOf (k : ℕ) (produced row : List ℚ) : Prop :=
  row.Sorted (· ≤ ·) ∧ row.length = min k produced.length ∧
  ∃ rest, List.Perm (row ++ rest) produced ∧ ∀ x ∈ row, ∀ y ∈ rest, x ≤ y

/-- A stand-in for the `torch.qr` primitive used to instantiate the QR
contract on a concrete input: it always returns the orthonormal `eye(2, 2)`. -/
def qrConst (M : List (List ℚ)) : List (List ℚ) := eyeMat 2 2

/-- A stand-in random generator returning `nbatch` empty matrices. -/
def rndConst (s nbatch na nguess : ℕ) : List (List (List ℚ)) :=
  List.replicate nbatch []

/-! ## Claim theorems -/

/-- Claim C1 (code-bug evidence): at a concrete converged state, `RKS.energy`
as written subtracts the xc potential LinearOperator itself (`exc - vxc`,
rks.py line 112) and fails with a TypeError, while the combination the claim
(and line 105's unused `e_vxc`) describes evaluates to a finite energy. -/
theorem rks_energy_uses_vxc_operator :
    rks_energy [1] [2] [[1]] 5 [[3]] [[4]] 7
      = Except.error "TypeError: unsupported operand types for -: Tensor and LinearOperator" ∧
    rks_energy_claimed [1] [2] [[1]] 5 [[3]] [[4]] 7 = 4 := by
  constructor
  · rfl
  · norm_num [rks_energy_claimed, weightedTrace, matmul, transposeQ, qdot, List.range_succ]

/-- Claim C6 (code-bug evidence): a freshly constructed `RKS` object already
reports `has_run = True` (rks.py line 53 sets it in `__init__`), contradicting
the claim that the run-completed flag reports no completed run; requesting the
energy before a run does fail (AttributeError on `_dm`) rather than return a
value. -/
theorem rks_has_run_true_at_init :
    RKS_init.has_run = true ∧
    RKS_energy RKS_init [] [] [] 0 [] [] 0
      = Except.error "AttributeError: RKS object has no attribute _dm" :=
  ⟨rfl, rfl⟩

/-- Claim C4: for a positive `eps_cond`, every entry of the Davidson
residual-correction denominator `diag(A) - lambda_i` after the guard has
magnitude at least `eps_cond` (in particular it is nonzero, so the reciprocal
is well-defined and no error is raised), and every entry whose magnitude was
below `eps_cond` has been set to `eps_cond`. -/
theorem davidson_precond_clamp (dA : List ℚ) (lam eps : ℚ) (heps : 0 < eps) :
    (∀ x ∈ clampDenom dA lam eps, eps ≤ |x| ∧ x ≠ 0) ∧
    (∀ d ∈ dA, |d - lam| < eps → clampEntry eps (d - lam) = eps) := by
  constructor
  · intro x hx
    obtain ⟨d, _, rfl⟩ := List.mem_map.mp hx
    by_cases h : |d - lam| < eps
    · simp only [clampEntry, if_pos h]
      exact ⟨le_of_eq (abs_of_pos heps).symm, ne_of_gt heps⟩
    · simp only [clampEntry, if_neg h]
      refine ⟨le_of_not_lt h, fun h0 => h ?_⟩
      rw [h0]
      simpa using heps
  · intro d _ h
    simp [clampEntry, if_pos h]

/-- Witness for C4 at a concrete input: `diag(A) = [0, 5]`, `lambda = 0`,
`eps_cond = 1`; the zero denominator entry is clamped to 1. -/
theorem davidson_precond_clamp_witness :
    ((1:ℚ) ≤ |(1:ℚ)| ∧ (1:ℚ) ≠ 0) ∧ clampDenom [0, 5] 0 1 = [1, 5] := by
  have h : clampDenom [0, 5] 0 1 = [1, 5] := by norm_num [clampDenom, clampEntry]
  exact ⟨(davidson_precond_clamp [0, 5] 0 1 (by norm_num)).1 1 (by rw [h]; simp), h⟩

/-- Claim C5: starting from an initial trial subspace of at most `na` columns,
the Davidson trial subspace at the start of every iteration has at most `na`
columns (the reduced QR of the augmented subspace keeps `min(na, ncols+nadd)`
columns). -/
theorem davidson_subspace_cols_le (na max_addition v0 : ℕ) (h : v0 ≤ na) :
    ∀ i, davidson_ncols na max_addition v0 i ≤ na := by
  intro i
  induction i with
  | zero => exact h
  | succ n ih => exact Nat.min_le_left _ _

/-- Witness for C5: `na = 3`, `max_addition = 2`, 2 initial columns, at the
start of iteration 5. -/
theorem davidson_subspace_cols_le_witness :
    2 ≤ 3 ∧ davidson_ncols 3 2 2 5 ≤ 3 :=
  ⟨by decide, davidson_subspace_cols_le 3 2 2 (by decide) 5⟩

/-- Claim C2 as stated is false on the code: `_ForwardOpt.backward` is a
backward pass of the optimization engine (the one its forward path actually
uses), and on an incoming nonzero gradient on `x*` it raises nothing and
returns `None` (i.e. zero) gradients for every input. -/
theorem forwardOpt_backward_silent_counterexample :
    ¬ (∀ (gz : ℚ) (gxs : List (List ℚ)),
        (∃ gx ∈ gxs, ∃ v ∈ gx, v ≠ 0) →
        ∃ msg, forwardOpt_backward gz gxs = Except.error msg) := by
  intro h
  obtain ⟨msg, hmsg⟩ := h 1 [[1]] ⟨[1], by simp, 1, by simp, one_ne_zero⟩
  simp [forwardOpt_backward] at hmsg

/-- Claim C2 amended: only `_BackwardOpt.backward` raises the explicit
"not implemented" error, exactly when some incoming gradient entry on `x*`
exceeds the allclose-to-zero tolerance 1e-8; when all entries are within the
tolerance it passes the objective's gradient through.  `_ForwardOpt.backward`
never raises and returns `None` gradients unconditionally. -/
theorem opt_backward_raises_only_in_backwardOpt (gz : ℚ) (gxs : List (List ℚ)) :
    (backwardOpt_backward gz gxs
        = Except.error "Unimplemented gradient contribution from the argmin"
      ↔ ∃ gx ∈ gxs, ∃ v ∈ gx, 1 / 100000000 < |v|) ∧
    ((∀ gx ∈ gxs, ∀ v ∈ gx, |v| ≤ 1 / 100000000) →
      backwardOpt_backward gz gxs = Except.ok (some gz, none, none)) ∧
    forwardOpt_backward gz gxs = Except.ok [none, none, none, none, none, none] := by
  have hall : gxs.all allcloseZero = true ↔ ∀ gx ∈ gxs, ∀ v ∈ gx, |v| ≤ 1 / 100000000 := by
    simp [List.all_eq_true, allcloseZero]
  refine ⟨?_, ?_, rfl⟩
  · unfold backwardOpt_backward
    by_cases hc : gxs.all allcloseZero = true
    · rw [if_pos hc]
      constructor
      · intro he
        exact Except.noConfusion he
      · rintro ⟨gx, hgx, v, hv, hlt⟩
        exact absurd (hall.mp hc gx hgx v hv) (not_le.mpr hlt)
    · rw [if_neg hc]
      constructor
      · intro _
        have hnot : ¬ ∀ gx ∈ gxs, ∀ v ∈ gx, |v| ≤ 1 / 100000000 :=
          fun hforall => hc (hall.mpr hforall)
        push_neg at hnot
        exact hnot
      · intro _
        rfl
  · intro hforall
    unfold backwardOpt_backward
    rw [if_pos (hall.mpr hforall)]

/-- Witness for the amended C2: a gradient entry 1 on `x*` raises, an all-zero
gradient passes `grad_zopt = 2` through. -/
theorem opt_backward_raises_witness :
    backwardOpt_backward 2 [[1]]
        = Except.error "Unimplemented gradient contribution from the argmin" ∧
    backwardOpt_backward 2 [[0]] = Except.ok (some 2, none, none) := by
  constructor
  · exact (opt_backward_raises_only_in_backwardOpt 2 [[1]]).1.mpr
      ⟨[1], by simp, 1, by simp, by norm_num⟩
  · refine (opt_backward_raises_only_in_backwardOpt 2 [[0]]).2.1 ?_
    intro gx hgx v hv
    simp only [List.mem_singleton] at hgx
    subst hgx
    simp only [List.mem_singleton] at hv
    subst hv
    norm_num

/-- Claim C9: the `loadbasis` cache is keyed on the atomic number alone; after
one successful call, a later call with the same `atomz` (and any `cartesian`
flag) returns the identical cached result without reading a file; a cache miss
with a missing basis file raises a RuntimeError. -/
theorem loadbasis_cache_keyed_on_atomz {β : Type} (fileExists : ℕ → Bool)
    (parsefile : ℕ → Bool → β) (res_memory : List (ℕ × β)) (atomz : ℕ) (c1 c2 : Bool) :
    (∀ res mem2 didRead,
      loadbasis fileExists parsefile res_memory atomz c1 = Except.ok (res, mem2, didRead) →
      loadbasis fileExists parsefile mem2 atomz c2 = Except.ok (res, mem2, false)) ∧
    (res_memory.lookup atomz = none → fileExists atomz = false →
      loadbasis fileExists parsefile res_memory atomz c1
        = Except.error "RuntimeError: the file for this Z is not found") := by
  constructor
  · intro res mem2 didRead h
    unfold loadbasis at h ⊢
    cases hmem : res_memory.lookup atomz with
    | some r =>
      rw [hmem] at h
      simp only [Except.ok.injEq, Prod.mk.injEq] at h
      obtain ⟨rfl, rfl, rfl⟩ := h
      rw [hmem]
    | none =>
      rw [hmem] at h
      by_cases hf : fileExists atomz = true
      · rw [if_pos hf] at h
        simp only [Except.ok.injEq, Prod.mk.injEq] at h
        obtain ⟨rfl, rfl, rfl⟩ := h
        have hl : ((atomz, parsefile atomz c1) :: res_memory).lookup atomz
            = some (parsefile atomz c1) := by
          simp [List.lookup]
        rw [hl]
      · rw [if_neg hf] at h
        exact Except.noConfusion h
  · intro hmem hf
    unfold loadbasis
    rw [hmem, if_neg (by simp [hf])]

/-- Witness for C9: a first call with `cartesian = True` fills the cache; the
second call with `cartesian = False` returns the result parsed with
`cartesian = True`, without reading a file; with no file, a miss errors. -/
theorem loadbasis_cache_witness :
    loadbasis (fun _ => true) (fun z c => (z, c)) [(3, ((3:ℕ), true))] 3 false
      = Except.ok ((3, true), [(3, (3, true))], false) ∧
    loadbasis (fun _ => false) (fun z c => (z, c)) ([] : List (ℕ × ℕ × Bool)) 3 true
      = Except.error "RuntimeError: the file for this Z is not found" := by
  constructor
  · exact (loadbasis_cache_keyed_on_atomz (fun _ => true) (fun z c => (z, c)) [] 3 true false).1
      (3, true) [(3, (3, true))] true rfl
  · exact (loadbasis_cache_keyed_on_atomz (fun _ => false) (fun z c => (z, c)) [] 3 true false).2
      rfl rfl

/-- Claim C10: energy-functional addition is a pointwise homomorphism: the
composite built by `__add__` evaluates `forward` to the sum of the two
forwards, its `potential` is the pairwise sum of the two potentials, and
adding a non-`BaseEKS` object raises a TypeError. -/
theorem eks_add_pointwise_homomorphism {D : Type} (a b : EKS D) (u d : D) (t : String) :
    (∃ c, EKS.addOp a (PyEKSArg.eks b) = Except.ok c ∧
      EKS.forward c u d = EKS.forward a u d + EKS.forward b u d ∧
      EKS.potential c u d
        = ((EKS.potential a u d).1 + (EKS.potential b u d).1,
           (EKS.potential a u d).2 + (EKS.potential b u d).2)) ∧
    EKS.addOp a (PyEKSArg.notEKS t)
      = Except.error ("Unknown type " ++ t ++ " for operating with EKS object") :=
  ⟨⟨EKS.add a b, rfl, rfl, rfl⟩, rfl⟩

/-- A zero vector annihilates a dot product from the left. -/
theorem qdot_replicate_zero_left (n : ℕ) (ys : List ℚ) :
    qdot (List.replicate n 0) ys = 0 := by
  induction n generalizing ys with
  | zero => simp [qdot]
  | succ m ih =>
    cases ys with
    | nil => simp [qdot]
    | cons y ys => simpa [qdot, List.replicate_succ] using ih ys

/-- A zero vector annihilates a dot product from the right. -/
theorem qdot_replicate_zero_right (n : ℕ) (xs : List ℚ) :
    qdot xs (List.replicate n 0) = 0 := by
  induction n generalizing xs with
  | zero => cases xs <;> simp [qdot]
  | succ m ih =>
    cases xs with
    | nil => simp [qdot]
    | cons x xs => simpa [qdot, List.replicate_succ] using ih xs

/-- Dot product of two nonempty vectors, head times head plus tail product. -/
theorem qdot_cons (x y : ℚ) (xs ys : List ℚ) :
    qdot (x :: xs) (y :: ys) = x * y + qdot xs ys := by
  simp [qdot]

/-- Dot products of identity columns are Kronecker deltas. -/
theorem qdot_eyeCol (na a b : ℕ) :
    qdot (eyeCol na a) (eyeCol na b) = if a = b ∧ a < na then 1 else 0 := by
  induction na generalizing a b with
  | zero => simp [eyeCol, qdot]
  | succ n ih =>
    cases a with
    | zero =>
      cases b with
      | zero =>
        rw [show eyeCol (n + 1) 0 = 1 :: List.replicate n 0 from rfl, qdot_cons,
          qdot_replicate_zero_left]
        simp
      | succ b =>
        rw [show eyeCol (n + 1) 0 = 1 :: List.replicate n 0 from rfl,
          show eyeCol (n + 1) (b + 1) = 0 :: eyeCol n b from rfl, qdot_cons,
          qdot_replicate_zero_left]
        simp
    | succ a =>
      cases b with
      | zero =>
        rw [show eyeCol (n + 1) (a + 1) = 0 :: eyeCol n a from rfl,
          show eyeCol (n + 1) 0 = 1 :: List.replicate n 0 from rfl, qdot_cons,
          qdot_replicate_zero_right]
        simp
      | succ b =>
        rw [show eyeCol (n + 1) (a + 1) = 0 :: eyeCol n a from rfl,
          show eyeCol (n + 1) (b + 1) = 0 :: eyeCol n b from rfl, qdot_cons, ih a b]
        by_cases hab : a = b
        · subst hab
          by_cases hlt : a < n <;> simp [hlt, Nat.succ_lt_succ_iff]
        · have hne : ¬ a + 1 = b + 1 := fun hcontr => hab (Nat.succ_injective hcontr)
          simp [hab, hne]

/-- The columns of `torch.eye(na, nguess)` are orthonormal when
`nguess <= na`. -/
theorem eyeMat_orthonormal (na nguess : ℕ) (h : nguess ≤ na) :
    orthonormalCols (eyeMat na nguess) := by
  constructor
  · intro c hc
    obtain ⟨j, hj, rfl⟩ := List.mem_map.mp hc
    have hjn : j < na := lt_of_lt_of_le (List.mem_range.mp hj) h
    rw [qdot_eyeCol]
    simp [hjn]
  · rw [eyeMat, List.pairwise_map]
    refine (List.pairwise_lt_range nguess).imp ?_
    intro i j hij
    rw [qdot_eyeCol]
    simp [Nat.ne_of_lt hij]

/-- Claim C8: under the `torch.qr` contract (the reduced Q factor always has
orthonormal columns, Householder reflectors being exactly orthogonal), for
every valid strategy and `nguess <= na` the initial subspace construction is
deterministic in the incoming RNG state (the fixed seed 12421 is set before
generation), returns `nbatch` per-batch matrices with orthonormal columns,
and an unknown strategy name raises a ValueError. -/
theorem set_initial_v_spec (qr : List (List ℚ) → List (List ℚ))
    (randn rand : ℕ → ℕ → ℕ → ℕ → List (List (List ℚ)))
    (hqr : ∀ M, orthonormalCols (qr M))
    (hrandn : ∀ s nb n g, (randn s nb n g).length = nb)
    (hrand : ∀ s nb n g, (rand s nb n g).length = nb)
    (vinit_type : String) (g1 g2 : TorchRNG) (nbatch na nguess : ℕ)
    (hng : nguess ≤ na) :
    (set_initial_v qr randn rand vinit_type g1 nbatch na nguess
      = set_initial_v qr randn rand vinit_type g2 nbatch na nguess) ∧
    ((vinit_type = "eye" ∨ vinit_type = "randn" ∨ vinit_type = "random" ∨ vinit_type = "rand") →
      ∃ Vs, set_initial_v qr randn rand vinit_type g1 nbatch na nguess = Except.ok Vs ∧
        Vs.length = nbatch ∧ ∀ V ∈ Vs, orthonormalCols V) ∧
    (vinit_type ≠ "eye" → vinit_type ≠ "randn" → vinit_type ≠ "random" → vinit_type ≠ "rand" →
      set_initial_v qr randn rand vinit_type g1 nbatch na nguess
        = Except.error ("Unknown v_init type: " ++ vinit_type)) := by
  refine ⟨rfl, ?_, ?_⟩
  · intro hvalid
    unfold set_initial_v
    rcases hvalid with h | h | h | h
    · subst h
      refine ⟨_, rfl, List.length_replicate _ _, ?_⟩
      intro V hV
      rw [List.eq_of_mem_replicate hV]
      exact eyeMat_orthonormal na nguess hng
    · subst h
      rw [if_neg (by decide), if_pos rfl]
      refine ⟨_, rfl, by rw [List.length_map, hrandn], ?_⟩
      intro V hV
      obtain ⟨M, _, rfl⟩ := List.mem_map.mp hV
      exact hqr M
    · subst h
      rw [if_neg (by decide), if_neg (by decide), if_pos (Or.inl rfl)]
      refine ⟨_, rfl, by rw [List.length_map, hrand], ?_⟩
      intro V hV
      obtain ⟨M, _, rfl⟩ := List.mem_map.mp hV
      exact hqr M
    · subst h
      rw [if_neg (by decide), if_neg (by decide), if_pos (Or.inr rfl)]
      refine ⟨_, rfl, by rw [List.length_map, hrand], ?_⟩
      intro V hV
      obtain ⟨M, _, rfl⟩ := List.mem_map.mp hV
      exact hqr M
  · intro h1 h2 h3 h4
    unfold set_initial_v
    rw [if_neg h1, if_neg h2, if_neg (by simp [h3, h4])]

/-- Witness for C8: the "eye" strategy with `nbatch = 1`, `na = 2`,
`nguess = 1` yields the same output for two different incoming RNG states, an
orthonormal single-batch subspace, and the strategy name "foo" errors. -/
theorem set_initial_v_spec_witness :
    (set_initial_v qrConst rndConst rndConst "eye" ⟨0⟩ 1 2 1
      = set_initial_v qrConst rndConst rndConst "eye" ⟨99⟩ 1 2 1) ∧
    (∃ Vs, set_initial_v qrConst rndConst rndConst "eye" ⟨0⟩ 1 2 1 = Except.ok Vs ∧
      Vs.length = 1 ∧ ∀ V ∈ Vs, orthonormalCols V) ∧
    set_initial_v qrConst rndConst rndConst "foo" ⟨0⟩ 1 2 1
      = Except.error ("Unknown v_init type: " ++ "foo") := by
  have hqr : ∀ M, orthonormalCols (qrConst M) :=
    fun _ => eyeMat_orthonormal 2 2 (le_refl 2)
  have hlen : ∀ s nb n g, (rndConst s nb n g).length = nb :=
    fun _ nb _ _ => List.length_replicate _ _
  have h1 := set_initial_v_spec qrConst rndConst rndConst hqr hlen hlen "eye" ⟨0⟩ ⟨99⟩ 1 2 1
    (by decide)
  have h2 := set_initial_v_spec qrConst rndConst rndConst hqr hlen hlen "foo" ⟨0⟩ ⟨99⟩ 1 2 1
    (by decide)
  exact ⟨h1.1, h1.2.1 (Or.inl rfl), h2.2.2 (by decide) (by decide) (by decide) (by decide)⟩

/-- The sorted eigenvalue output of the symmetric eigendecomposition model is
sorted ascending. -/
theorem sortAsc_sorted (l : List ℚ) : (sortAsc l).Sorted (· ≤ ·) :=
  List.sorted_insertionSort _ l

/-- The sorted eigenvalue output is a permutation of the produced values. -/
theorem sortAsc_perm (l : List ℚ) : List.Perm (sortAsc l) l :=
  List.perm_insertionSort _ l

/-- The slice `evals[:neig]` of the `torch.symeig` output holds the `neig`
smallest of the produced eigenvalue approximations, in ascending order. -/
theorem symeig_take_isKSmallest (k : ℕ) (s : List ℚ) :
    isKSmallestOf k s (symeig_take k s) := by
  have hsort := sortAsc_sorted s
  have hperm := sortAsc_perm s
  refine ⟨?_, ?_, (sortAsc s).drop k, ?_, ?_⟩
  · exact List.Pairwise.sublist (List.take_sublist _ _) hsort
  · rw [symeig_take, List.length_take, hperm.length_eq]
  · rw [symeig_take, List.take_append_drop]
    exact hperm
  · intro x hx y hy
    have h := hsort
    rw [← List.take_append_drop k (sortAsc s)] at h
    exact (List.pairwise_append.mp h).2.2 x hx y hy

/-- Batched form of `symeig_take_isKSmallest`. -/
theorem forall₂_isKSmallest (k : ℕ) (l : List (List ℚ)) :
    List.Forall₂ (isKSmallestOf k) l (eigOut k l) := by
  induction l with
  | nil => exact List.Forall₂.nil
  | cons s t ih => exact List.Forall₂.cons (symeig_take_isKSmallest k s) ih

/-- Sorting each batch spectrum and then slicing is `eigOut`. -/
theorem map_take_sortAsc (k : ℕ) (l : List (List ℚ)) :
    (l.map sortAsc).map (List.take k) = eigOut k l := by
  rw [List.map_map]
  rfl

/-- Every successful Davidson loop exit returns the sorted-and-sliced Ritz
values of some iteration's projected matrix. -/
theorem davidsonRun_ok_eigOut (na neig : ℕ) (min_eps : ℚ) (maxadd : ℕ)
    (specs : ℕ → List (List ℚ)) :
    ∀ fuel iter ncols prev evals,
      (prev = none ∨ ∃ j, prev = some (eigOut neig (specs j))) →
      davidsonRun na neig min_eps maxadd specs fuel iter ncols prev = Except.ok evals →
      ∃ j, evals = eigOut neig (specs j) := by
  intro fuel
  induction fuel with
  | zero =>
    intro iter ncols prev evals hinv h
    cases prev with
    | none => exact Except.noConfusion h
    | some p =>
      rcases hinv with hnone | ⟨j, hj⟩
      · exact Option.noConfusion hnone
      · obtain rfl := Option.some.inj hj
        obtain rfl := Except.ok.inj h
        exact ⟨j, rfl⟩
  | succ n ih =>
    intro iter ncols prev evals hinv h
    cases prev with
    | none =>
      simp only [davidsonRun] at h
      split at h
      · obtain rfl := Except.ok.inj h
        exact ⟨iter, map_take_sortAsc neig (specs iter)⟩
      · exact ih _ _ _ _
          (Or.inr ⟨iter, congrArg some (map_take_sortAsc neig (specs iter))⟩) h
    | some p =>
      simp only [davidsonRun] at h
      split at h
      · obtain rfl := Except.ok.inj h
        exact ⟨iter, map_take_sortAsc neig (specs iter)⟩
      · split at h
        · obtain rfl := Except.ok.inj h
          exact ⟨iter, map_take_sortAsc neig (specs iter)⟩
        · exact ih _ _ _ _
            (Or.inr ⟨iter, congrArg some (map_take_sortAsc neig (specs iter))⟩) h

/-- Every successful Lanczos loop exit returns the sorted-and-sliced Ritz
values of some iteration's projected matrix. -/
theorem lanczosRun_ok_eigOut (neig : ℕ) (min_eps : ℚ) (specs : ℕ → List (List ℚ)) :
    ∀ fuel i prev evals,
      (prev = none ∨ ∃ j, prev = some (eigOut neig (specs j))) →
      lanczosRun neig min_eps specs fuel i prev = Except.ok evals →
      ∃ j, evals = eigOut neig (specs j) := by
  intro fuel
  induction fuel with
  | zero =>
    intro i prev evals hinv h
    cases prev with
    | none => exact Except.noConfusion h
    | some p =>
      rcases hinv with hnone | ⟨j, hj⟩
      · exact Option.noConfusion hnone
      · obtain rfl := Option.some.inj hj
        obtain rfl := Except.ok.inj h
        exact ⟨j, rfl⟩
  | succ n ih =>
    intro i prev evals hinv h
    cases prev with
    | none =>
      simp only [lanczosRun] at h
      split at h
      · exact ih _ _ _ hinv h
      · exact ih _ _ _
          (Or.inr ⟨i, congrArg some (map_take_sortAsc neig (specs i))⟩) h
    | some p =>
      simp only [lanczosRun] at h
      split at h
      · exact ih _ _ _ hinv h
      · split at h
        · obtain rfl := Except.ok.inj h
          exact ⟨i, map_take_sortAsc neig (specs i)⟩
        · exact ih _ _ _
            (Or.inr ⟨i, congrArg some (map_take_sortAsc neig (specs i))⟩) h

/-- Claim C3: for every operator (its per-iteration Ritz spectra given by
`spec0`/`specs`), every requested count `neig` and every variant, a returned
eigenvalue tensor is, per batch element, sorted ascending and holds the
`neig` smallest eigenvalue approximations that the variant produced (the Ritz
values of the final projected matrix it diagonalized). -/
theorem eig_evals_sorted_k_smallest (shape : ℕ × ℕ)
    (neig nguess max_niter max_addition : ℕ) (min_eps : ℚ) (v0cols : ℕ)
    (spec0 : List (List ℚ)) (specs : ℕ → List (List ℚ)) :
    (∀ evals, exacteig shape neig spec0 = Except.ok evals →
      evals = eigOut neig spec0 ∧ List.Forall₂ (isKSmallestOf neig) spec0 evals) ∧
    (∀ evals, lanczos shape neig max_niter min_eps specs = Except.ok evals →
      ∃ j, evals = eigOut neig (specs j) ∧
        List.Forall₂ (isKSmallestOf neig) (specs j) evals) ∧
    (∀ evals, davidson shape neig nguess max_niter max_addition min_eps v0cols specs
        = Except.ok evals →
      ∃ j, evals = eigOut neig (specs j) ∧
        List.Forall₂ (isKSmallestOf neig) (specs j) evals) := by
  refine ⟨?_, ?_, ?_⟩
  · intro evals h
    unfold exacteig at h
    cases hc : check_and_get_shape shape with
    | error msg =>
      rw [hc] at h
      exact Except.noConfusion h
    | ok na =>
      rw [hc] at h
      obtain rfl := (Except.ok.inj h).symm
      exact ⟨rfl, forall₂_isKSmallest neig spec0⟩
  · intro evals h
    unfold lanczos at h
    cases hc : check_and_get_shape shape with
    | error msg =>
      rw [hc] at h
      exact Except.noConfusion h
    | ok na =>
      rw [hc] at h
      obtain ⟨j, rfl⟩ :=
        lanczosRun_ok_eigOut neig min_eps specs max_niter 0 none evals (Or.inl rfl) h
      exact ⟨j, rfl, forall₂_isKSmallest neig (specs j)⟩
  · intro evals h
    unfold davidson at h
    cases hc : check_and_get_shape shape with
    | error msg =>
      rw [hc] at h
      exact Except.noConfusion h
    | ok na =>
      rw [hc] at h
      obtain ⟨j, rfl⟩ := davidsonRun_ok_eigOut na neig min_eps max_addition specs
        (pyRangeLen nguess max_niter nguess) 0 v0cols none evals (Or.inl rfl) h
      exact ⟨j, rfl, forall₂_isKSmallest neig (specs j)⟩

/-- Witness for C3 on a concrete spectrum `[2, 1]` with `neig = 1`: all three
variants return `[[1]]`, and the main theorem applies to each. -/
theorem eig_evals_sorted_k_smallest_witness :
    ([[(1:ℚ), 2]] = eigOut 2 [[2, 1]] ∧
      List.Forall₂ (isKSmallestOf 2) [[(2:ℚ), 1]] [[1, 2]]) ∧
    (∃ j, [[(1:ℚ), 2]] = eigOut 2 ((fun _ : ℕ => [[(2:ℚ), 1]]) j) ∧
      List.Forall₂ (isKSmallestOf 2) ((fun _ : ℕ => [[(2:ℚ), 1]]) j) [[1, 2]]) ∧
    (∃ j, [[(1:ℚ), 2]] = eigOut 2 ((fun _ : ℕ => [[(2:ℚ), 1]]) j) ∧
      List.Forall₂ (isKSmallestOf 2) ((fun _ : ℕ => [[(2:ℚ), 1]]) j) [[1, 2]]) := by
  have h := eig_evals_sorted_k_smallest (2, 2) 2 1 2 1 1 2 [[2, 1]] (fun _ => [[2, 1]])
  exact ⟨h.1 [[1, 2]] rfl, h.2.1 [[1, 2]] rfl, h.2.2 [[1, 2]] rfl⟩

/-- A failing Davidson loop can only fail with the unbound-variable error,
never with the shape message (the shape check happens before the loop). -/
theorem davidsonRun_error_unbound (na neig : ℕ) (min_eps : ℚ) (maxadd : ℕ)
    (specs : ℕ → List (List ℚ)) :
    ∀ fuel iter ncols prev msg,
      davidsonRun na neig min_eps maxadd specs fuel iter ncols prev = Except.error msg →
      msg = unboundErrMsg := by
  intro fuel
  induction fuel with
  | zero =>
    intro iter ncols prev msg h
    cases prev with
    | none => exact (Except.error.inj h).symm
    | some p => exact Except.noConfusion h
  | succ n ih =>
    intro iter ncols prev msg h
    cases prev with
    | none =>
      simp only [davidsonRun] at h
      split at h
      · exact Except.noConfusion h
      · exact ih _ _ _ _ h
    | some p =>
      simp only [davidsonRun] at h
      split at h
      · exact Except.noConfusion h
      · split at h
        · exact Except.noConfusion h
        · exact ih _ _ _ _ h

/-- A failing Lanczos loop can only fail with the unbound-variable error. -/
theorem lanczosRun_error_unbound (neig : ℕ) (min_eps : ℚ) (specs : ℕ → List (List ℚ)) :
    ∀ fuel i prev msg,
      lanczosRun neig min_eps specs fuel i prev = Except.error msg →
      msg = unboundErrMsg := by
  intro fuel
  induction fuel with
  | zero =>
    intro i prev msg h
    cases prev with
    | none => exact (Except.error.inj h).symm
    | some p => exact Except.noConfusion h
  | succ n ih =>
    intro i prev msg h
    cases prev with
    | none =>
      simp only [lanczosRun] at h
      split at h
      · exact ih _ _ _ h
      · exact ih _ _ _ h
    | some p =>
      simp only [lanczosRun] at h
      split at h
      · exact ih _ _ _ h
      · split at h
        · exact Except.noConfusion h
        · exact ih _ _ _ h

/-- Claim C7: for every variant, a non-square declared operator shape `(n, m)`
raises the fatal shape error before any iteration or operator application
(uniformly in the spectra oracle), and a square shape never raises the shape
error. -/
theorem eig_square_shape_check (n m : ℕ) (neig nguess max_niter max_addition : ℕ)
    (min_eps : ℚ) (v0cols : ℕ) (spec0 : List (List ℚ)) (specs : ℕ → List (List ℚ)) :
    (n ≠ m →
      exacteig (n, m) neig spec0 = Except.error shapeErrMsg ∧
      lanczos (n, m) neig max_niter min_eps specs = Except.error shapeErrMsg ∧
      davidson (n, m) neig nguess max_niter max_addition min_eps v0cols specs
        = Except.error shapeErrMsg) ∧
    (n = m →
      exacteig (n, m) neig spec0 ≠ Except.error shapeErrMsg ∧
      lanczos (n, m) neig max_niter min_eps specs ≠ Except.error shapeErrMsg ∧
      davidson (n, m) neig nguess max_niter max_addition min_eps v0cols specs
        ≠ Except.error shapeErrMsg) := by
  have hdist : shapeErrMsg ≠ unboundErrMsg := by decide
  constructor
  · intro hne
    have hc : check_and_get_shape (n, m) = Except.error shapeErrMsg := by
      simp [check_and_get_shape, hne, shapeErrMsg]
    refine ⟨?_, ?_, ?_⟩
    · unfold exacteig
      rw [hc]
    · unfold lanczos
      rw [hc]
    · unfold davidson
      rw [hc]
  · intro heq
    have hc : check_and_get_shape (n, m) = Except.ok n := by
      simp [check_and_get_shape, heq]
    refine ⟨?_, ?_, ?_⟩
    · unfold exacteig
      rw [hc]
      exact fun hcontr => Except.noConfusion hcontr
    · unfold lanczos
      rw [hc]
      intro hcontr
      exact hdist (lanczosRun_error_unbound neig min_eps specs max_niter 0 none _ hcontr)
    · unfold davidson
      rw [hc]
      intro hcontr
      exact hdist (davidsonRun_error_unbound n neig min_eps max_addition specs
        (pyRangeLen nguess max_niter nguess) 0 v0cols none _ hcontr)

/-- Witness for C7 at concrete shapes `(2, 3)` (all three variants raise the
shape error) and `(2, 2)` (none does). -/
theorem eig_square_shape_check_witness :
    (exacteig (2, 3) 1 [[1]] = Except.error shapeErrMsg ∧
      lanczos (2, 3) 1 2 1 (fun _ => [[1]]) = Except.error shapeErrMsg ∧
      davidson (2, 3) 1 1 2 1 1 1 (fun _ => [[1]]) = Except.error shapeErrMsg) ∧
    (exacteig (2, 2) 1 [[1]] ≠ Except.error shapeErrMsg ∧
      lanczos (2, 2) 1 2 1 (fun _ => [[1]]) ≠ Except.error shapeErrMsg ∧
      davidson (2, 2) 1 1 2 1 1 1 (fun _ => [[1]]) ≠ Except.error shapeErrMsg) :=
  ⟨(eig_square_shape_check 2 3 1 1 2 1 1 1 [[1]] (fun _ => [[1]])).1 (by decide),
   (eig_square_shape_check 2 2 1 1 2 1 1 1 [[1]] (fun _ => [[1]])).2 rfl⟩
